import Mathlib

/-
Formal model of SerialLoggerDeluxe v2.0.1 (src/Python/SerialLoggerDeluxev2.0.1.py).

Shallow embedding of the streaming/decoding core: the protocol decoders
(NMEA-0183, Modbus-RTU, CAN-ASCII, JSON-line), the CRC-16 routine, the
line-reassembly loop, the log/decode writer task, the serial read loop and the
command history, together with proved properties of those definitions.

Python strings are modelled as Lean `String`/`List Char`; `bytes` as
`List Nat` (each element < 256 where it matters).  Python library primitives
(`str.strip`, `str.split`, `int(s, 16)`, `bytes.fromhex`, hex formatting) are
modelled explicitly below, on the ASCII fragment the program exercises.
-/

namespace SerialLogger

/-- ASCII whitespace as recognised by Python `str.strip()` / `str.split()`
(restriction to ASCII of Python's whitespace set). -/
def isPySpace (c : Char) : Bool :=
  c = ' ' || c = '\t' || c = '\n' || c = '\r' || c = '\x0b' || c = '\x0c'

/-- Python `s.lstrip()` on a character list. -/
def lstripList (l : List Char) : List Char := l.dropWhile isPySpace

/-- Python `s.rstrip()` on a character list. -/
def rstripList (l : List Char) : List Char := (l.reverse.dropWhile isPySpace).reverse

/-- Python `s.strip()` on a character list. -/
def pyStripList (l : List Char) : List Char := rstripList (lstripList l)

/-- Python `s.strip()`. -/
def pyStrip (s : String) : String := .mk (pyStripList s.data)

/-- Python `s.split(sep)` for a one-character separator. -/
def pySplitCh (sep : Char) : List Char → List (List Char)
  | [] => [[]]
  | c :: cs =>
    if c = sep then [] :: pySplitCh sep cs
    else
      match pySplitCh sep cs with
      | [] => [[c]]
      | p :: ps => (c :: p) :: ps

/-- Python slice `l[a:b]` (clamping, as in Python). -/
def pySlice (l : List Char) (a b : Nat) : List Char := (l.take b).drop a

/-- Decimal digit test, `'0'..'9'`. -/
def isDigitB (c : Char) : Bool := '0' ≤ c && c ≤ '9'

/-- Hex digit test, `0-9a-fA-F`. -/
def isHexDigitB (c : Char) : Bool :=
  ('0' ≤ c && c ≤ '9') || ('a' ≤ c && c ≤ 'f') || ('A' ≤ c && c ≤ 'F')

/-- Numeric value of a hex digit (case-insensitive). -/
def hexDigitVal (c : Char) : Nat :=
  if c ≤ '9' then c.toNat - '0'.toNat
  else if c ≤ 'F' then c.toNat - 'A'.toNat + 10
  else c.toNat - 'a'.toNat + 10

/-- Python `int(s, 16)`, modelled on plain nonempty strings of hex digits;
other forms Python would also accept (sign, `0x` prefix, surrounding
whitespace, underscores) are outside the inputs the claims quantify over and
are mapped to failure. -/
def int16? (l : List Char) : Option Nat :=
  if l ≠ [] ∧ l.all isHexDigitB then
    some (l.foldl (fun a c => 16 * a + hexDigitVal c) 0)
  else none

/-- Python `int(s)` (base 10), same modelling note as `int16?`. -/
def int10? (l : List Char) : Option Nat :=
  if l ≠ [] ∧ l.all isDigitB then
    some (l.foldl (fun a c => 10 * a + hexDigitVal c) 0)
  else none

/-- Python `bytes.fromhex`: pairs of hex digits, ASCII whitespace allowed
between pairs. -/
def bytes_fromhex : List Char → Option (List Nat)
  | [] => some []
  | c :: cs =>
    if isPySpace c then bytes_fromhex cs
    else if isHexDigitB c then
      match cs with
      | [] => none
      | d :: ds =>
        if isHexDigitB d then
          (bytes_fromhex ds).map (fun bs => (16 * hexDigitVal c + hexDigitVal d) :: bs)
        else none
    else none

/-- Uppercase hex digit character for `n < 16`. -/
def hexDigitU (n : Nat) : Char :=
  if n < 10 then Char.ofNat (48 + n) else Char.ofNat (55 + n)

/-- Uppercase hex digits, most significant first, with explicit fuel
(structural recursion so that terms evaluate by kernel reduction; the fuel
`n + 1` given by `toHexU` always suffices since `n / 16` shrinks). -/
def toHexUF : Nat → Nat → List Char
  | _, 0 => []
  | n, fuel + 1 =>
    if n < 16 then [hexDigitU n] else toHexUF (n / 16) fuel ++ [hexDigitU (n % 16)]

/-- Uppercase hex digits of `n`, most significant first (`toHexU 0 = "0"`). -/
def toHexU (n : Nat) : List Char := toHexUF n (n + 1)

/-- Python format `{:0wX}`: zero-padded uppercase hex with minimum width. -/
def fmtHex (width n : Nat) : String :=
  .mk (List.replicate (width - (toHexU n).length) '0' ++ toHexU n)

/-- Python `data.hex(' ').upper()` / `' '.join(f" \x7bb:02X\x7d" ...)` on bytes. -/
def bytesHexSp (l : List Nat) : String :=
  String.intercalate " " (l.map (fmtHex 2))

/-- Python `int.from_bytes(l, 'little')`. -/
def int_from_bytes_le (l : List Nat) : Nat :=
  l.foldr (fun b a => b + 256 * a) 0

/-! ## NMEA-0183 decoder (source: `parse_nmea_sentence`, lines 86-127) -/

/-- Model of `calculated_checksum`: running XOR of the character codes. -/
def nmea_xor (l : List Char) : Nat := l.foldl (fun a c => a ^^^ c.toNat) 0

/-- Python `sub in s` on strings (substring containment). -/
def substr_mem (sub : List Char) : List Char → Bool
  | [] => sub.isEmpty
  | c :: cs => sub.isPrefixOf (c :: cs) || substr_mem sub cs

/-- The `GPGGA` branch f-string (lines 104-112); defined only when the
field accesses `fields[1]`..`fields[10]` do not raise `IndexError`,
i.e. when the caller has checked `11 ≤ fields.length`. -/
def gpgga_report (fields : List (List Char)) : String :=
  "--- GGA: Global Positioning System Fix Data ---\n" ++
  "  Hora (UTC):      " ++ .mk ((fields.getD 1 []).take 2) ++ ":" ++
    .mk (pySlice (fields.getD 1 []) 2 4) ++ ":" ++ .mk ((fields.getD 1 []).drop 4) ++ "\n" ++
  "  Latitud:         " ++ .mk (fields.getD 2 []) ++ " " ++ .mk (fields.getD 3 []) ++ "\n" ++
  "  Longitud:        " ++ .mk (fields.getD 4 []) ++ " " ++ .mk (fields.getD 5 []) ++ "\n" ++
  "  Calidad Fix:     " ++ .mk (fields.getD 6 []) ++ " (0=inv, 1=GPS, 2=DGPS)\n" ++
  "  Satélites:       " ++ .mk (fields.getD 7 []) ++ "\n" ++
  "  HDOP:            " ++ .mk (fields.getD 8 []) ++ "\n" ++
  "  Altitud:         " ++ .mk (fields.getD 9 []) ++ " " ++ .mk (fields.getD 10 []) ++ "\n" ++
  "--------------------------------------------------\n"

/-- The `GPRMC` branch f-string (lines 117-123); needs `10 ≤ fields.length`. -/
def gprmc_report (fields : List (List Char)) : String :=
  "--- RMC: Recommended Minimum Specific GNSS Data ---\n" ++
  "  Hora (UTC):      " ++ .mk ((fields.getD 1 []).take 2) ++ ":" ++
    .mk (pySlice (fields.getD 1 []) 2 4) ++ ":" ++ .mk ((fields.getD 1 []).drop 4) ++ "\n" ++
  "  Estado:          " ++
    (if substr_mem (fields.getD 2 []) "AV".data then "A=Activo, V=Vacio"
     else String.mk (fields.getD 2 [])) ++ "\n" ++
  "  Velocidad (nudos): " ++ .mk (fields.getD 7 []) ++ "\n" ++
  "  Rumbo:           " ++ .mk (fields.getD 8 []) ++ "\n" ++
  "  Fecha:           " ++ .mk ((fields.getD 9 []).take 2) ++ "/" ++
    .mk (pySlice (fields.getD 9 []) 2 4) ++ "/20" ++ .mk ((fields.getD 9 []).drop 4) ++ "\n" ++
  "--------------------------------------------------\n"

/-- Body of `parse_nmea_sentence` after the initial `line = line.strip()`.
`try/except IndexError` around the `GPGGA`/`GPRMC` f-strings is modelled by
the explicit field-count guards (Python raises `IndexError` exactly when a
needed field index is out of range; string slicing never raises). -/
def parse_nmea_stripped (line : List Char) : String :=
  if ¬ (line.head? = some '$' ∧ '*' ∈ line) then "[NO NMEA] " ++ .mk line ++ "\n"
  else
    let parts := pySplitCh '*' line
    if parts.length ≠ 2 then "[FORMATO NMEA INVÁLIDO] " ++ .mk line ++ "\n"
    else
      let sentence_data := (parts.getD 0 []).drop 1
      let checksum_str := parts.getD 1 []
      let calculated_checksum := nmea_xor sentence_data
      match int16? checksum_str with
      | none => "[CHECKSUM INVÁLIDO] " ++ .mk line ++ "\n"
      | some received_checksum =>
        if calculated_checksum ≠ received_checksum then
          "[ERROR CHECKSUM: Calc=" ++ fmtHex 2 calculated_checksum ++ ", Recib=" ++
            fmtHex 2 received_checksum ++ "] " ++ .mk line ++ "\n"
        else
          let fields := pySplitCh ',' sentence_data
          let msg_type := fields.getD 0 []
          if msg_type = "GPGGA".data then
            if 11 ≤ fields.length then gpgga_report fields
            else "[GPGGA MAL FORMADO] " ++ .mk line ++ "\n"
          else if msg_type = "GPRMC".data then
            if 10 ≤ fields.length then gprmc_report fields
            else "[GPRMC MAL FORMADO] " ++ .mk line ++ "\n"
          else "[TIPO NMEA NO SOPORTADO: " ++ .mk msg_type ++ "] " ++ .mk line ++ "\n"

/-- Wrapper `parse_nmea_sentence(line)`. -/
def parse_nmea_sentence (line0 : String) : String :=
  parse_nmea_stripped (pyStripList line0.data)

/-! ## CAN-ASCII decoder (source: `parse_can_ascii`, lines 161-176) -/

/-- The success f-string of `parse_can_ascii` (lines 170-174). -/
def can_report (can_id data_len : Nat) (data_bytes : List Nat) : String :=
  "--- CAN ASCII ---\n" ++
  "  ID:            0x" ++ fmtHex 3 can_id ++ "\n" ++
  "  DLC:           " ++ toString data_len ++ "\n" ++
  "  Datos:         " ++ bytesHexSp data_bytes ++ "\n" ++
  "-------------------\n"

/-- Body of `parse_can_ascii` after `line = line.strip()`.  The `try` block
fails (`ValueError`/`IndexError`) exactly when `int(line[4])` (missing or
non-digit char), `int(line[1:4], 16)` (non-hex) or
`bytes.fromhex(line[5:5+data_len*2])` (odd length / non-hex) fails; all
three failures produce the same malformed-frame report. -/
def parse_can_ascii_stripped (line : List Char) : String :=
  if line = [] ∨ (line.headD ' ').toLower ≠ 't' then "[NO CAN-ASCII] " ++ .mk line ++ "\n"
  else
    match int10? (pySlice line 4 5) with
    | none => "[CAN-ASCII MAL FORMADO] " ++ .mk line ++ "\n"
    | some data_len =>
      match int16? (pySlice line 1 4), bytes_fromhex (pySlice line 5 (5 + data_len * 2)) with
      | some can_id, some data_bytes => can_report can_id data_len data_bytes
      | _, _ => "[CAN-ASCII MAL FORMADO] " ++ .mk line ++ "\n"

/-- Wrapper `parse_can_ascii(line)`. -/
def parse_can_ascii (line0 : String) : String :=
  parse_can_ascii_stripped (pyStripList line0.data)

/-! ## JSON-line decoder (source: `parse_json_line`, lines 179-187) -/

/-- Body of `parse_json_line` after `line = line.strip()`.  The standard
library functions `json.loads` / `json.dumps(indent=2)` are external
collaborators abstracted as parameters; `loads` returns `none` exactly when
Python raises `json.JSONDecodeError`. -/
def parse_json_stripped {α : Type} (loads : String → Option α) (dumps : α → String)
    (line : List Char) : String :=
  if ¬ (line.head? = some '{' ∧ line.getLast? = some '}') then
    "[NO JSON] " ++ .mk line ++ "\n"
  else
    match loads (.mk line) with
    | some data => "--- JSON Object ---\n" ++ dumps data ++ "\n-------------------\n"
    | none => "[JSON MAL FORMADO] " ++ .mk line ++ "\n"

/-- Wrapper `parse_json_line(line)`. -/
def parse_json_line {α : Type} (loads : String → Option α) (dumps : α → String)
    (line0 : String) : String :=
  parse_json_stripped loads dumps (pyStripList line0.data)

/-! ## Report shape -/

/-- Shape of every decoder result: a line-feed-terminated report block that
is either a decoded block (opening `---`) or a bracketed diagnostic
(opening `[`). -/
def is_report (s : String) : Prop :=
  s.data.getLast? = some '\n' ∧
  (s.data.head? = some '-' ∨ s.data.head? = some '[')

/-! ## Line reassembler (source: `_log_and_decode_task` lines 989-1000 and
`run_cli_mode.console_output` lines 299-305) -/

/-- Effect of the `while '\n' in line_buffer: line, line_buffer =
line_buffer.split('\n', 1)` loop on a buffer: the complete lines (text up
to each LF, terminator excluded, in order) and the trailing partial
segment.  `drain_lines_no_nl` and `drain_lines_split` below prove that this
definition satisfies exactly the source loop's recursion (split at the
first LF, repeat). -/
def drain_lines : List Char → List (List Char) × List Char
  | [] => ([], [])
  | c :: cs =>
    let p := drain_lines cs
    if c = '\n' then ([] :: p.1, p.2)
    else
      match p.1 with
      | [] => ([], c :: p.2)
      | l :: ls => ((c :: l) :: ls, p.2)

/-- One iteration of the consumer: append the decoded chunk to the pending
buffer (`line_buffer += decoded_string`) and drain all complete lines. -/
def feed (buf chunk : List Char) : List (List Char) × List Char :=
  drain_lines (buf ++ chunk)

/-- Repeated feeding of a chunk sequence, accumulating the emitted lines in
order, as the log/decode loop does across queue items. -/
def run_reassembler : List Char → List (List Char) → List (List Char) × List Char
  | buf, [] => ([], buf)
  | buf, chunk :: rest =>
    let p := feed buf chunk
    let q := run_reassembler p.2 rest
    (p.1 ++ q.1, q.2)

/-! ## Log/decode writer task (source: `_log_and_decode_task`, lines 964-1002) -/

inductive LogEvent
  | write (s : String)
  | flush
  | close
  deriving DecidableEq

/-- File and decoded-queue effects of the `while True` consumer loop of
`_log_and_decode_task`, fed the queue items that precede the `None`
sentinel (the list end models the sentinel).  `protocol` and `log_to_file`
are the session flags read at thread start; `parser_b` is
`DECODERS.get(protocol)` as used in the Modbus-RTU branch (applied to raw
frame bytes) and `parser_s` the same lookup as used in the line branch
(applied to the completed line, terminator included); `ts` is the
`get_timestamp(...)` rendering current during the session; `dec` the
incremental `codecs` decoder for the session encoding; the final `List Char`
argument is `line_buffer`.  Returns the file actions (in order; `close`
models the `logfile.close()` after the loop) and the strings pushed to
`decoded_queue`. -/
def log_and_decode_task (protocol : String) (parser_b : Option (List Nat → String))
    (parser_s : Option (String → String)) (log_to_file : Bool) (ts : String)
    (dec : List Nat → String) : List (List Nat) → List Char → List LogEvent × List String
  | [], _buf => (if log_to_file then [.close] else [], [])
  | chunk :: rest, buf =>
    if protocol = "Modbus-RTU" then
      match parser_b with
      | some p =>
        let decoded_line := p chunk
        let evs := if log_to_file then [LogEvent.write (ts ++ decoded_line)] else []
        let q := log_and_decode_task protocol parser_b parser_s log_to_file ts dec rest buf
        (evs ++ q.1, decoded_line :: q.2)
      | none =>
        log_and_decode_task protocol parser_b parser_s log_to_file ts dec rest buf
    else
      let p := drain_lines (buf ++ (dec chunk).data)
      let evs := (p.1.map (fun l =>
        if log_to_file then [LogEvent.write (ts ++ .mk l ++ "\n"), LogEvent.flush]
        else [])).flatten
      let decs :=
        match parser_s with
        | some f => p.1.map (fun l => f (.mk (l ++ ['\n'])))
        | none => []
      let q := log_and_decode_task protocol parser_b parser_s log_to_file ts dec rest p.2
      (evs ++ q.1, decs ++ q.2)

/-- Final log-file actions of the CLI loop (source: `run_cli_mode`,
lines 315-322): after the read loop stops, a non-empty pending
`line_buffer` is written stripped (`line_buffer.strip()`, both ends) with a
timestamp and terminator, then the file is closed. -/
def cli_finalize (ts : String) (line_buffer : List Char) : List LogEvent :=
  (if line_buffer ≠ [] then
    [LogEvent.write (ts ++ .mk (pyStripList line_buffer) ++ "\n")]
   else []) ++ [.close]

/-! ## Serial read loop (source: `SerialHandler._read_task`, lines 234-254;
`_process_gui_queue`, lines 1042-1051; `close_port`, lines 851-855) -/

inductive PollEvent
  | quiet
  | chunk (data : List Nat)
  | fail
  deriving DecidableEq

/-- The synthetic error chunk
`b"\n--- ERROR: Puerto serie desconectado ---\n"`. -/
def ERROR_CHUNK : List Nat :=
  "\n--- ERROR: Puerto serie desconectado ---\n".data.map Char.toNat

/-- Chunks pushed to the display sink (`output_callback`, i.e.
`gui_queue.put`) by `_read_task` for a sequence of poll outcomes, together
with the final state of the `is_reading` flag.  `quiet` is an iteration
with `in_waiting == 0`, `chunk` a successful read, `fail` a
`serial.SerialException` raised mid-read: the loop then emits the synthetic
error chunk, clears `is_reading` and breaks (remaining events are never
polled).  The read loop itself never touches the log queue. -/
def read_task : List PollEvent → List (List Nat) × Bool
  | [] => ([], true)
  | .quiet :: rest => read_task rest
  | .chunk c :: rest =>
    let q := read_task rest
    if c ≠ [] then (c :: q.1, q.2) else q
  | .fail :: _ => ([ERROR_CHUNK], false)

/-- Model of `_process_gui_queue`: every chunk drained from the GUI queue is
forwarded unchanged to the log queue when file logging or a protocol is
active; the `none` sentinel is never pushed here. -/
def process_gui_queue (logging_active : Bool) (chunks : List (List Nat)) :
    List (Option (List Nat)) :=
  if logging_active then chunks.map some else []

/-- Model of `close_port`: the only site that pushes the `None` end-of-stream
sentinel onto the log queue (`self.log_queue.put(None)`), reached on a
user-initiated close. -/
def close_port_log_pushes : List (Option (List Nat)) := [none]

/-! ## Command history (source: `_send_data` lines 678-710;
`deque(maxlen=50)` line 407) -/

/-- `collections.deque(maxlen=50).append`: append, evicting from the left
down to 50 elements. -/
def deque50_append (h : List String) (x : String) : List String :=
  let l := h ++ [x]
  l.drop (l.length - 50)

/-- Python `"".join(s.split())`: removes all whitespace. -/
def pyRemoveWs (s : String) : String := .mk (s.data.filter (fun c => !isPySpace c))

/-- History effect and outcome of `_send_data`: `input` is the entry-field
text, `hex_input` the hex-mode flag, `write_ok` the outcome
`SerialHandler.write_data` reports for this write.  Returns the new
`command_history` and whether the send succeeded.  The history append
(lines 683-684, conditional only on distinctness from the last entry)
happens before the send is attempted. -/
def send_data (history : List String) (input : String) (hex_input : Bool)
    (write_ok : Bool) : List String × Bool :=
  if input = "" then (history, false)
  else
    let history2 :=
      if history = [] ∨ history.getLast? ≠ some input then deque50_append history input
      else history
    if hex_input then
      match bytes_fromhex (pyRemoveWs input).data with
      | none => (history2, false)
      | some _ => (history2, write_ok)
    else (history2, write_ok)

/-! ## Timestamps (source: `get_timestamp`, lines 71-83) -/

/-- The `delimiters` dict of `get_timestamp`. -/
def TS_DELIMS : List (String × String) :=
  [("blank", " "), ("komma", ","), ("semicolon", ";"), ("none", "")]

/-- The `formats` dict of `get_timestamp`: `render` abstracts the
`strftime`-style rendering of the current local time for each format key;
the "Mod. Julian Date" entry is the fixed source string. -/
def ts_formats (render : String → String) : List (String × String) :=
  [("ISO 8601", render "ISO 8601"),
   ("Date|Time|Timezone", render "Date|Time|Timezone"),
   ("Date|Time", render "Date|Time"),
   ("Time", render "Time"),
   ("Mod. Julian Date", "No implementado"),
   ("Year|Day of year|Time", render "Year|Day of year|Time"),
   ("yyyy|MM|dd|HH|mm|ss", render "yyyy|MM|dd|HH|mm|ss")]

/-- Model of `get_timestamp(format_choice, delimiter)`. -/
def get_timestamp (format_choice delimiter : String) (render : String → String) : String :=
  if format_choice = "none" then ""
  else
    let timestamp := ((ts_formats render).lookup format_choice).getD ""
    if timestamp ≠ "" then timestamp ++ ((TS_DELIMS.lookup delimiter).getD " ")
    else ""

/-! ## CRC-16 (source: `calculate_crc16`, lines 130-139) -/

/-- One shift/XOR iteration of the inner `for _ in range(8)` loop:
`if crc & 1: crc >>= 1; crc ^= 0xA001 else: crc >>= 1`. -/
def crc_step (crc : Nat) : Nat :=
  if crc % 2 = 1 then (crc / 2) ^^^ 0xA001 else crc / 2

/-- Processing of one input byte: `crc ^= byte` then 8 iterations. -/
def crc_byte (crc b : Nat) : Nat := crc_step^[8] (crc ^^^ b)

/-- Model of `calculate_crc16(data)`: initial register 0xFFFF, then one `crc_byte`
round per input byte. -/
def calculate_crc16 (data : List Nat) : Nat :=
  data.foldl crc_byte 0xFFFF

/-- The 2-byte little-endian encoding of `calculate_crc16 data`
(`crc.to_bytes(2, 'little')`). -/
def crc16_le (data : List Nat) : List Nat :=
  [calculate_crc16 data % 256, calculate_crc16 data / 256]

/-! ## Modbus-RTU decoder (source: `parse_modbus_rtu`, lines 142-158) -/

/-- The `func_map` dict of `parse_modbus_rtu`. -/
def MODBUS_FUNC_MAP : List (Nat × String) :=
  [(1, "Read Coils"), (2, "Read Discrete Inputs"), (3, "Read Holding Registers"),
   (4, "Read Input Registers"), (5, "Write Single Coil"), (6, "Write Single Register")]

/-- Model of `func_map.get(function_code, f"Desconocido (0x\x7bfunction_code:02X\x7d)")`. -/
def modbus_func_name (function_code : Nat) : String :=
  (MODBUS_FUNC_MAP.lookup function_code).getD
    ("Desconocido (0x" ++ fmtHex 2 function_code ++ ")")

/-- The final f-string of `parse_modbus_rtu` (lines 153-158). -/
def modbus_report (address function_code : Nat) (payload : List Nat)
    (received_crc : Nat) (crc_status : String) : String :=
  "--- MODBUS RTU ---\n" ++
  "  ID Esclavo:      " ++ toString address ++ "\n" ++
  "  Función:         " ++ toString function_code ++ " (" ++
    modbus_func_name function_code ++ ")\n" ++
  "  Datos (Hex):     " ++ bytesHexSp payload ++ "\n" ++
  "  CRC Recibido:    " ++ fmtHex 4 received_crc ++ " (" ++ crc_status ++ ")\n" ++
  "---------------------\n"

/-- Model of `parse_modbus_rtu(raw_bytes)`. -/
def parse_modbus_rtu (raw_bytes : List Nat) : String :=
  if raw_bytes.length < 4 then
    "[TRAMA MODBUS MUY CORTA: " ++ bytesHexSp raw_bytes ++ "]\n"
  else
    let address := raw_bytes.getD 0 0
    let function_code := raw_bytes.getD 1 0
    let payload := (raw_bytes.drop 2).dropLast.dropLast
    let received_crc := int_from_bytes_le (raw_bytes.drop (raw_bytes.length - 2))
    let calculated_crc := calculate_crc16 raw_bytes.dropLast.dropLast
    let crc_status :=
      if received_crc = calculated_crc then "OK"
      else "ERROR (Calc: " ++ fmtHex 4 calculated_crc ++ ")"
    modbus_report address function_code payload received_crc crc_status

/-! ### CRC-16 register bound -/

lemma crc_step_lt {c : Nat} (h : c < 65536) : crc_step c < 65536 := by
  unfold crc_step
  split
  · have h1 : c / 2 < 2 ^ 16 := by omega
    have h2 : (0xA001 : Nat) < 2 ^ 16 := by norm_num
    have := Nat.xor_lt_two_pow h1 h2
    omega
  · omega

lemma crc_iter_lt {c : Nat} (h : c < 65536) (n : Nat) : crc_step^[n] c < 65536 := by
  induction n generalizing c with
  | zero => simpa using h
  | succ k ih =>
    rw [Function.iterate_succ_apply]
    exact ih (crc_step_lt h)

lemma crc_byte_lt {c b : Nat} (hc : c < 65536) (hb : b < 256) : crc_byte c b < 65536 := by
  unfold crc_byte
  apply crc_iter_lt
  have h1 : c < 2 ^ 16 := by omega
  have h2 : b < 2 ^ 16 := by omega
  have := Nat.xor_lt_two_pow h1 h2
  omega

/-- The CRC register always fits in 16 bits, so the 2-byte little-endian
encoding `crc16_le` is faithful. -/
lemma calculate_crc16_lt (data : List Nat) (h : ∀ x ∈ data, x < 256) :
    calculate_crc16 data < 65536 := by
  unfold calculate_crc16
  have aux : ∀ (l : List Nat), (∀ x ∈ l, x < 256) → ∀ init, init < 65536 →
      l.foldl crc_byte init < 65536 := by
    intro l
    induction l with
    | nil => intro _ init hi; simpa using hi
    | cons a l ih =>
      intro hl init hi
      simp only [List.foldl_cons]
      exact ih (fun x hx => hl x (List.mem_cons_of_mem _ hx))
        _ (crc_byte_lt hi (hl a (List.mem_cons_self _ _)))
  exact aux data h 0xFFFF (by norm_num)

/-- C1 (amended): `calculate_crc16` is the bit-at-a-time CRC-16/MODBUS
algorithm as defined above (initial register 0xFFFF, polynomial 0xA001,
byte XORed into the low byte, 8 shift/XOR iterations), its result fits in
two bytes, and for every byte sequence `b` **of length at least 2** the
frame `b ++ crc16_le b` is reported by `parse_modbus_rtu` with CRC status
"OK".  (For shorter `b` the assembled frame has fewer than 4 bytes and is
reported as too short instead — see the counterexample.) -/
theorem modbus_crc_roundtrip_ok (b : List Nat) (hlen : 2 ≤ b.length)
    (hb : ∀ x ∈ b, x < 256) :
    calculate_crc16 b < 65536 ∧
    parse_modbus_rtu (b ++ crc16_le b) =
      modbus_report (b.getD 0 0) (b.getD 1 0) (b.drop 2) (calculate_crc16 b) "OK" := by
  refine ⟨calculate_crc16_lt b hb, ?_⟩
  show parse_modbus_rtu (b ++ [calculate_crc16 b % 256, calculate_crc16 b / 256]) = _
  have hlen2 : (b ++ [calculate_crc16 b % 256, calculate_crc16 b / 256]).length
      = b.length + 2 := by simp
  unfold parse_modbus_rtu
  rw [if_neg (by omega)]
  have hdl : (b ++ [calculate_crc16 b % 256, calculate_crc16 b / 256]).dropLast.dropLast
      = b := by
    have h2 : b ++ [calculate_crc16 b % 256, calculate_crc16 b / 256]
        = (b ++ [calculate_crc16 b % 256]) ++ [calculate_crc16 b / 256] := by simp
    rw [h2, List.dropLast_concat, List.dropLast_concat]
  have hdrop2 :
      ((b ++ [calculate_crc16 b % 256, calculate_crc16 b / 256]).drop 2).dropLast.dropLast
      = b.drop 2 := by
    rw [List.drop_append_of_le_length hlen]
    have h2 : b.drop 2 ++ [calculate_crc16 b % 256, calculate_crc16 b / 256]
        = (b.drop 2 ++ [calculate_crc16 b % 256]) ++ [calculate_crc16 b / 256] := by simp
    rw [h2, List.dropLast_concat, List.dropLast_concat]
  have hlast2 : (b ++ [calculate_crc16 b % 256, calculate_crc16 b / 256]).drop
      ((b ++ [calculate_crc16 b % 256, calculate_crc16 b / 256]).length - 2)
      = [calculate_crc16 b % 256, calculate_crc16 b / 256] := by
    rw [hlen2]
    have h2 : b.length + 2 - 2 = b.length := by omega
    rw [h2, List.drop_left]
  have hrecv : int_from_bytes_le [calculate_crc16 b % 256, calculate_crc16 b / 256]
      = calculate_crc16 b := by
    unfold int_from_bytes_le
    simp only [List.foldr]
    omega
  rw [hlast2, hrecv, hdl, hdrop2]
  dsimp only
  rw [if_pos rfl]
  have h0 : (b ++ [calculate_crc16 b % 256, calculate_crc16 b / 256]).getD 0 0 = b.getD 0 0 :=
    List.getD_append _ _ _ _ (by omega)
  have h1 : (b ++ [calculate_crc16 b % 256, calculate_crc16 b / 256]).getD 1 0 = b.getD 1 0 :=
    List.getD_append _ _ _ _ (by omega)
  rw [h0, h1]

/-- C1 witness: the round-trip theorem applied to the concrete frame body
`[0x01, 0x03]`. -/
theorem modbus_crc_roundtrip_ok_witness :
    calculate_crc16 [1, 3] < 65536 ∧
    parse_modbus_rtu ([1, 3] ++ crc16_le [1, 3]) =
      modbus_report ([1, 3].getD 0 0) ([1, 3].getD 1 0) ([1, 3].drop 2)
        (calculate_crc16 [1, 3]) "OK" :=
  modbus_crc_roundtrip_ok [1, 3] (by decide) (by decide)

/-- C1 counterexample: for the empty byte sequence the assembled frame
`[] ++ crc16_le []` (two bytes) is reported as "too short", not with CRC
status "OK", refuting the claim's unrestricted quantification over byte
sequences. -/
theorem modbus_crc_roundtrip_fails_on_short :
    ¬ ∃ a f p c, parse_modbus_rtu ([] ++ crc16_le []) = modbus_report a f p c "OK" := by
  rintro ⟨a, f, p, c, h⟩
  have h1 : parse_modbus_rtu ([] ++ crc16_le []) = "[TRAMA MODBUS MUY CORTA: FF FF]\n" := by
    decide
  have h2 : (modbus_report a f p c "OK").data.headD ' ' = '-' := by
    unfold modbus_report
    simp [String.data_append]
  rw [h1] at h
  rw [← h] at h2
  exact absurd h2 (by decide)

/-! ### Properties of the Python string helpers -/

lemma lstripList_sp_append {w : List Char} (hw : w.all isPySpace) (l : List Char) :
    lstripList (w ++ l) = lstripList l := by
  induction w with
  | nil => rfl
  | cons c w ih =>
    simp only [List.all_cons, Bool.and_eq_true] at hw
    simp only [List.cons_append, lstripList, List.dropWhile_cons, hw.1, if_true]
    exact ih hw.2

lemma lstripList_all_sp {l : List Char} (hl : l.all isPySpace) : lstripList l = [] := by
  have := lstripList_sp_append hl ([] : List Char)
  simpa using this

lemma lstripList_append_of_ne_nil {l : List Char} (h : lstripList l ≠ []) (r : List Char) :
    lstripList (l ++ r) = lstripList l ++ r := by
  unfold lstripList at h ⊢
  rw [List.dropWhile_append]
  simp [List.isEmpty_iff, h]

lemma rstripList_append_sp {w : List Char} (hw : w.all isPySpace) (l : List Char) :
    rstripList (l ++ w) = rstripList l := by
  unfold rstripList
  rw [List.reverse_append]
  have hw2 : w.reverse.all isPySpace := by simpa [List.all_reverse] using hw
  rw [show w.reverse ++ l.reverse = w.reverse ++ l.reverse from rfl]
  have := lstripList_sp_append hw2 l.reverse
  unfold lstripList at this
  rw [this]

lemma pyStripList_pad {w1 w2 : List Char} (h1 : w1.all isPySpace) (h2 : w2.all isPySpace)
    (l : List Char) : pyStripList (w1 ++ l ++ w2) = pyStripList l := by
  unfold pyStripList
  rw [List.append_assoc, lstripList_sp_append h1]
  by_cases hl : lstripList l = []
  · have hall : ∀ x ∈ l, isPySpace x := by
      have := List.dropWhile_eq_nil_iff.mp hl
      simpa [lstripList] using this
    have hlw : (l ++ w2).all isPySpace := by
      rw [List.all_append]
      have hla : l.all isPySpace := List.all_eq_true.mpr (fun x hx => hall x hx)
      rw [hla, h2]
      rfl
    rw [lstripList_all_sp hlw, hl]
  · rw [lstripList_append_of_ne_nil hl, rstripList_append_sp h2]

lemma pyStripList_id {l : List Char}
    (h1 : ∀ c, l.head? = some c → isPySpace c = false)
    (h2 : ∀ c, l.getLast? = some c → isPySpace c = false) :
    pyStripList l = l := by
  cases l with
  | nil => rfl
  | cons a m =>
    have ha : isPySpace a = false := h1 a rfl
    have hlast : ((a :: m).reverse).head? = (a :: m).getLast? := List.head?_reverse _
    unfold pyStripList lstripList rstripList
    rw [List.dropWhile_cons, ha]
    simp only [Bool.false_eq_true, if_false]
    cases hr : (a :: m).reverse with
    | nil => simp at hr
    | cons b r =>
      have hb : isPySpace b = false := by
        apply h2
        rw [← hlast, hr]
        rfl
      rw [List.dropWhile_cons, hb]
      simp only [Bool.false_eq_true, if_false]
      rw [← hr, List.reverse_reverse]

lemma pySplitCh_cons_eq (sep : Char) (cs : List Char) :
    pySplitCh sep (sep :: cs) = [] :: pySplitCh sep cs := by
  simp only [pySplitCh]
  simp

lemma pySplitCh_cons_ne {sep c : Char} (hc : ¬ c = sep) (cs : List Char) :
    pySplitCh sep (c :: cs) =
      match pySplitCh sep cs with
      | [] => [[c]]
      | p :: ps => (c :: p) :: ps := by
  simp only [pySplitCh]
  rw [if_neg hc]

lemma pySplitCh_ne_nil (sep : Char) (l : List Char) : pySplitCh sep l ≠ [] := by
  cases l with
  | nil => simp [pySplitCh]
  | cons c cs =>
    by_cases hc : c = sep
    · subst hc
      rw [pySplitCh_cons_eq]
      simp
    · rw [pySplitCh_cons_ne hc]
      cases pySplitCh sep cs <;> simp

lemma pySplitCh_no_sep {sep : Char} {l : List Char} (h : sep ∉ l) :
    pySplitCh sep l = [l] := by
  induction l with
  | nil => rfl
  | cons c cs ih =>
    have hc : ¬ c = sep := fun e => h (e ▸ List.mem_cons_self c cs)
    have hcs : sep ∉ cs := fun m => h (List.mem_cons_of_mem _ m)
    rw [pySplitCh_cons_ne hc, ih hcs]

lemma pySplitCh_append {sep : Char} {l : List Char} (h : sep ∉ l) (r : List Char) :
    pySplitCh sep (l ++ sep :: r) = l :: pySplitCh sep r := by
  induction l with
  | nil =>
    simp only [List.nil_append]
    exact pySplitCh_cons_eq sep r
  | cons c cs ih =>
    have hc : ¬ c = sep := fun e => h (e ▸ List.mem_cons_self c cs)
    have hcs : sep ∉ cs := fun m => h (List.mem_cons_of_mem _ m)
    rw [List.cons_append, pySplitCh_cons_ne hc, ih hcs]

lemma pySplitCh_length (sep : Char) (l : List Char) :
    (pySplitCh sep l).length = l.count sep + 1 := by
  induction l with
  | nil => rfl
  | cons c cs ih =>
    by_cases hc : c = sep
    · subst hc
      rw [pySplitCh_cons_eq]
      simp [List.count_cons, ih]
    · rw [pySplitCh_cons_ne hc]
      have hne := pySplitCh_ne_nil sep cs
      cases hs : pySplitCh sep cs with
      | nil => exact absurd hs hne
      | cons p ps =>
        rw [hs] at ih
        simp only [List.length_cons] at ih
        simp [List.count_cons, hc, ih]

lemma isPySpace_toNat {c : Char} (h : isPySpace c = true) : c.toNat ≤ 32 := by
  unfold isPySpace at h
  simp only [Bool.or_eq_true, decide_eq_true_eq] at h
  rcases h with ((((h | h) | h) | h) | h) | h <;> subst h <;> decide

lemma char_le_toNat {a c : Char} (h : a ≤ c) : a.toNat ≤ c.toNat := h

lemma isHexDigitB_toNat {c : Char} (h : isHexDigitB c = true) : 48 ≤ c.toNat := by
  unfold isHexDigitB at h
  simp only [Bool.or_eq_true, Bool.and_eq_true, decide_eq_true_eq] at h
  rcases h with (⟨h1, _⟩ | ⟨h1, _⟩) | ⟨h1, _⟩
  · have h2 := char_le_toNat h1
    have e : ('0' : Char).toNat = 48 := rfl
    omega
  · have h2 := char_le_toNat h1
    have e : ('a' : Char).toNat = 97 := rfl
    omega
  · have h2 := char_le_toNat h1
    have e : ('A' : Char).toNat = 65 := rfl
    omega

lemma isHexDigitB_not_space {c : Char} (h : isHexDigitB c = true) :
    isPySpace c = false := by
  have h48 := isHexDigitB_toNat h
  by_contra hne
  have htrue : isPySpace c = true := by
    revert hne
    cases isPySpace c <;> simp
  have := isPySpace_toNat htrue
  omega


/-! ### C2: NMEA checksum handling -/

/-- C2 (confirmed): for a (whitespace-trimmed) line `$<body>*<cs>` with
exactly one `*` and a 2-digit hex checksum field parsing to `v`, a checksum
mismatch produces the report quoting both the computed XOR value and the
received value; a line whose stripped form does not start with `$` or has
no `*` produces the `[NO NMEA]` diagnostic, and one with two or more `*`
produces the `[FORMATO NMEA INVÁLIDO]` diagnostic. -/
theorem nmea_checksum_spec :
    (∀ (body cs : List Char) (v : Nat), '*' ∉ body → '*' ∉ cs → cs.length = 2 →
      int16? cs = some v → nmea_xor body ≠ v →
      parse_nmea_sentence (.mk ('$' :: body ++ '*' :: cs)) =
        "[ERROR CHECKSUM: Calc=" ++ fmtHex 2 (nmea_xor body) ++ ", Recib=" ++
          fmtHex 2 v ++ "] " ++ .mk ('$' :: body ++ '*' :: cs) ++ "\n") ∧
    (∀ line0 : String,
      (pyStripList line0.data).head? ≠ some '$' ∨ '*' ∉ pyStripList line0.data →
      parse_nmea_sentence line0 = "[NO NMEA] " ++ .mk (pyStripList line0.data) ++ "\n") ∧
    (∀ line0 : String, 2 ≤ (pyStripList line0.data).count '*' →
      (pyStripList line0.data).head? = some '$' →
      parse_nmea_sentence line0 =
        "[FORMATO NMEA INVÁLIDO] " ++ .mk (pyStripList line0.data) ++ "\n") := by
  refine ⟨?_, ?_, ?_⟩
  · intro body cs v hb hcs hlen hv hne
    have hcs_all : cs.all isHexDigitB := by
      unfold int16? at hv
      split at hv
      · rename_i hcond
        exact hcond.2
      · exact absurd hv (by simp)
    match cs, hlen with
    | [c0, c1], _ =>
    have hc1 : isHexDigitB c1 = true := by
      simp only [List.all_cons, Bool.and_eq_true] at hcs_all
      exact hcs_all.2.1
    have hstrip : pyStripList ('$' :: body ++ '*' :: [c0, c1])
        = '$' :: body ++ '*' :: [c0, c1] := by
      apply pyStripList_id
      · intro c hc
        have he : c = '$' := by
          simp only [List.cons_append, List.head?_cons, Option.some.injEq] at hc
          exact hc.symm
        rw [he]
        decide
      · intro c hc
        have he : ('$' :: body ++ '*' :: [c0, c1]).getLast? = some c1 := by
          have h2 : '$' :: body ++ '*' :: [c0, c1]
              = ('$' :: body) ++ ['*', c0, c1] := by simp
          rw [h2, List.getLast?_append]
          rfl
        rw [he] at hc
        have : c = c1 := by simpa using hc.symm
        rw [this]
        exact isHexDigitB_not_space hc1
    have hnotin : '*' ∉ '$' :: body := by
      intro hm
      rcases List.mem_cons.mp hm with h | h
      · exact absurd h (by decide)
      · exact hb h
    have hsplit : pySplitCh '*' ('$' :: body ++ '*' :: [c0, c1])
        = ('$' :: body) :: [[c0, c1]] := by
      have h2 : '$' :: body ++ '*' :: [c0, c1] = ('$' :: body) ++ '*' :: [c0, c1] := by
        simp
      rw [h2, pySplitCh_append hnotin, pySplitCh_no_sep hcs]
    have hmem : '*' ∈ '$' :: body ++ '*' :: [c0, c1] := by simp
    show parse_nmea_stripped (pyStripList ('$' :: body ++ '*' :: [c0, c1])) = _
    rw [hstrip]
    unfold parse_nmea_stripped
    rw [if_neg (not_not_intro ⟨rfl, hmem⟩)]
    dsimp only
    rw [hsplit]
    rw [if_neg (show ¬((('$' :: body) :: [[c0, c1]]).length ≠ 2) by simp)]
    simp only [List.getD_cons_zero, List.getD_cons_succ, List.drop_succ_cons,
      List.drop_zero]
    rw [hv]
    dsimp only
    rw [if_pos hne]
  · intro line0 h
    show parse_nmea_stripped (pyStripList line0.data) = _
    unfold parse_nmea_stripped
    rw [if_pos]
    intro hcon
    rcases h with h | h
    · exact h hcon.1
    · exact h hcon.2
  · intro line0 hcount hhead
    show parse_nmea_stripped (pyStripList line0.data) = _
    unfold parse_nmea_stripped
    have hmem : '*' ∈ pyStripList line0.data := by
      by_contra hno
      rw [List.count_eq_zero.mpr hno] at hcount
      omega
    rw [if_neg (not_not_intro ⟨hhead, hmem⟩)]
    dsimp only
    rw [if_pos]
    rw [pySplitCh_length]
    omega

/-- C2 witness: the mismatch branch at the concrete sentence `$GPGGA*00`
(computed checksum 0x56, transmitted 0x00), plus the two diagnostic branches
at concrete malformed lines. -/
theorem nmea_checksum_spec_witness :
    parse_nmea_sentence (.mk ('$' :: "GPGGA".data ++ '*' :: "00".data)) =
      "[ERROR CHECKSUM: Calc=" ++ fmtHex 2 (nmea_xor "GPGGA".data) ++ ", Recib=" ++
        fmtHex 2 0 ++ "] " ++ .mk ('$' :: "GPGGA".data ++ '*' :: "00".data) ++ "\n" ∧
    parse_nmea_sentence "hello" = "[NO NMEA] " ++ .mk (pyStripList "hello".data) ++ "\n" := by
  constructor
  · exact nmea_checksum_spec.1 "GPGGA".data "00".data 0 (by decide) (by decide) (by decide)
      (by decide) (by decide)
  · exact nmea_checksum_spec.2.1 "hello" (by right; decide)

/-! ### Line reassembler lemmas -/

lemma drain_lines_cons_nl (cs : List Char) :
    drain_lines ('\n' :: cs) = ([] :: (drain_lines cs).1, (drain_lines cs).2) := by
  simp [drain_lines]

lemma drain_lines_cons_ne {c : Char} (hc : ¬ c = '\n') (cs : List Char) :
    drain_lines (c :: cs) =
      match (drain_lines cs).1 with
      | [] => ([], c :: (drain_lines cs).2)
      | l :: ls => ((c :: l) :: ls, (drain_lines cs).2) := by
  simp only [drain_lines]
  rw [if_neg hc]

lemma drain_lines_no_nl {buf : List Char} (h : '\n' ∉ buf) :
    drain_lines buf = ([], buf) := by
  induction buf with
  | nil => rfl
  | cons c cs ih =>
    have hc : ¬ c = '\n' := fun e => h (e ▸ List.mem_cons_self c cs)
    have hcs : '\n' ∉ cs := fun m => h (List.mem_cons_of_mem _ m)
    rw [drain_lines_cons_ne hc, ih hcs]

lemma drain_lines_split {l : List Char} (r : List Char) (h : '\n' ∉ l) :
    drain_lines (l ++ '\n' :: r) = (l :: (drain_lines r).1, (drain_lines r).2) := by
  induction l with
  | nil =>
    simp only [List.nil_append]
    rw [drain_lines_cons_nl]
  | cons c cs ih =>
    have hc : ¬ c = '\n' := fun e => h (e ▸ List.mem_cons_self c cs)
    have hcs : '\n' ∉ cs := fun m => h (List.mem_cons_of_mem _ m)
    rw [List.cons_append, drain_lines_cons_ne hc, ih hcs]

lemma drain_lines_append (x y : List Char) :
    drain_lines (x ++ y) =
      ((drain_lines x).1 ++ (drain_lines ((drain_lines x).2 ++ y)).1,
       (drain_lines ((drain_lines x).2 ++ y)).2) := by
  induction x with
  | nil => simp [drain_lines]
  | cons c cs ih =>
    by_cases hc : c = '\n'
    · subst hc
      rw [List.cons_append, drain_lines_cons_nl, drain_lines_cons_nl, ih]
      simp
    · rw [List.cons_append, drain_lines_cons_ne hc, drain_lines_cons_ne hc, ih]
      cases hA : (drain_lines cs).1 with
      | nil =>
        rw [List.cons_append, drain_lines_cons_ne hc]
        simp
      | cons a as =>
        simp

lemma drain_lines_buf_no_nl (s : List Char) : '\n' ∉ (drain_lines s).2 := by
  induction s with
  | nil => simp [drain_lines]
  | cons c cs ih =>
    by_cases hc : c = '\n'
    · subst hc
      rw [drain_lines_cons_nl]
      exact ih
    · rw [drain_lines_cons_ne hc]
      cases hA : (drain_lines cs).1 with
      | nil =>
        intro hm
        rcases List.mem_cons.mp hm with e | m
        · exact hc e.symm
        · exact ih m
      | cons a as => exact ih

lemma drain_lines_lines_no_nl (s : List Char) : ∀ l ∈ (drain_lines s).1, '\n' ∉ l := by
  induction s with
  | nil => simp [drain_lines]
  | cons c cs ih =>
    by_cases hc : c = '\n'
    · subst hc
      rw [drain_lines_cons_nl]
      intro l hl
      rcases List.mem_cons.mp hl with e | m
      · subst e; simp
      · exact ih l m
    · rw [drain_lines_cons_ne hc]
      cases hA : (drain_lines cs).1 with
      | nil => simp
      | cons a as =>
        intro l hl
        rcases List.mem_cons.mp hl with e | m
        · subst e
          intro hm
          rcases List.mem_cons.mp hm with e2 | m2
          · exact hc e2.symm
          · exact ih a (hA ▸ List.mem_cons_self a as) m2
        · exact ih l (hA ▸ List.mem_cons_of_mem a m)

lemma drain_lines_count (s : List Char) : (drain_lines s).1.length = s.count '\n' := by
  induction s with
  | nil => simp [drain_lines]
  | cons c cs ih =>
    by_cases hc : c = '\n'
    · subst hc
      rw [drain_lines_cons_nl]
      simp [List.count_cons, ih]
    · rw [drain_lines_cons_ne hc]
      cases hA : (drain_lines cs).1 with
      | nil =>
        rw [hA] at ih
        simp only [List.length_nil] at ih
        simp [List.count_cons, hc, ← ih]
      | cons a as =>
        rw [hA] at ih
        simp only [List.length_cons] at ih
        simp [List.count_cons, hc, ← ih]

lemma drain_lines_reconstruct (s : List Char) :
    ((drain_lines s).1.map (fun l => l ++ ['\n'])).flatten ++ (drain_lines s).2 = s := by
  induction s with
  | nil => simp [drain_lines]
  | cons c cs ih =>
    by_cases hc : c = '\n'
    · subst hc
      rw [drain_lines_cons_nl]
      simpa using ih
    · rw [drain_lines_cons_ne hc]
      cases hA : (drain_lines cs).1 with
      | nil =>
        rw [hA] at ih
        simp only [List.map_nil, List.flatten_nil, List.nil_append] at ih
        simp [ih]
      | cons a as =>
        rw [hA] at ih
        simp only [List.map_cons, List.flatten_cons, List.cons_append,
          List.append_assoc] at ih ⊢
        rw [ih]

lemma drain_lines_tail (s : List Char) :
    (drain_lines s).2 = (s.reverse.takeWhile (fun c => c != '\n')).reverse := by
  induction s using List.reverseRecOn with
  | nil => simp [drain_lines]
  | append_singleton s a ih =>
    have happ := drain_lines_append s [a]
    by_cases ha : a = '\n'
    · subst ha
      have hs := drain_lines_split ([] : List Char) (drain_lines_buf_no_nl s)
      rw [happ, hs]
      simp [drain_lines, List.reverse_append, List.takeWhile_cons]
    · have hnn : '\n' ∉ (drain_lines s).2 ++ [a] := by
        intro hm
        rcases List.mem_append.mp hm with m | m
        · exact drain_lines_buf_no_nl s m
        · exact ha (List.mem_singleton.mp m).symm
      rw [happ, drain_lines_no_nl hnn]
      rw [List.reverse_append]
      simp [List.takeWhile_cons, ha, ih]

lemma run_reassembler_eq (chunks : List (List Char)) :
    ∀ buf, '\n' ∉ buf → run_reassembler buf chunks =
      drain_lines (buf ++ chunks.flatten) := by
  induction chunks with
  | nil =>
    intro buf h
    simp only [run_reassembler, List.flatten_nil, List.append_nil]
    rw [drain_lines_no_nl h]
  | cons c rest ih =>
    intro buf h
    simp only [run_reassembler, feed]
    rw [ih _ (drain_lines_buf_no_nl _)]
    rw [List.flatten_cons, ← List.append_assoc]
    rw [drain_lines_append (buf ++ c) rest.flatten]

/-- C3 (confirmed): for every finite sequence of text chunks, the
reassembly loop over the chunks equals a single drain of the concatenation
(chunk-boundary independence); it emits exactly `count LF` complete lines,
none containing the terminator; restoring the terminators and appending the
final pending buffer reproduces the input; and the pending buffer is
exactly the text after the last line feed (LF-free). -/
theorem reassembler_spec (chunks : List (List Char)) :
    run_reassembler [] chunks = drain_lines chunks.flatten ∧
    (drain_lines chunks.flatten).1.length = chunks.flatten.count '\n' ∧
    ((drain_lines chunks.flatten).1.map (fun l => l ++ ['\n'])).flatten ++
      (drain_lines chunks.flatten).2 = chunks.flatten ∧
    (∀ l ∈ (drain_lines chunks.flatten).1, '\n' ∉ l) ∧
    '\n' ∉ (drain_lines chunks.flatten).2 ∧
    (drain_lines chunks.flatten).2 =
      (chunks.flatten.reverse.takeWhile (fun c => c != '\n')).reverse := by
  refine ⟨?_, drain_lines_count _, drain_lines_reconstruct _,
    drain_lines_lines_no_nl _, drain_lines_buf_no_nl _, drain_lines_tail _⟩
  have := run_reassembler_eq chunks [] (by simp)
  simpa using this

/-! ### C9: CAN-ASCII framing -/

lemma getLast?_mem : ∀ {l : List Char} {a : Char}, l.getLast? = some a → a ∈ l
  | [], _, h => by simp at h
  | [x], a, h => by
    simp only [List.getLast?_singleton, Option.some.injEq] at h
    simp [h]
  | x :: y :: t, a, h => by
    rw [List.getLast?_cons_cons] at h
    exact List.mem_cons_of_mem x (getLast?_mem h)

/-- C10 (confirmed): each of the three string decoders strips its input
before any validation, so adding or removing leading/trailing whitespace
(including the LF terminator the Log/Decode Writer leaves on the line)
leaves the report unchanged. -/
theorem decoders_strip_invariant (l : String) (w1 w2 : List Char)
    (h1 : w1.all isPySpace = true) (h2 : w2.all isPySpace = true) :
    parse_nmea_sentence (.mk (w1 ++ l.data ++ w2)) = parse_nmea_sentence l ∧
    parse_can_ascii (.mk (w1 ++ l.data ++ w2)) = parse_can_ascii l ∧
    ∀ (α : Type) (loads : String → Option α) (dumps : α → String),
      parse_json_line loads dumps (.mk (w1 ++ l.data ++ w2)) =
        parse_json_line loads dumps l := by
  have key : pyStripList (w1 ++ l.data ++ w2) = pyStripList l.data :=
    pyStripList_pad h1 h2 l.data
  refine ⟨?_, ?_, ?_⟩
  · show parse_nmea_stripped (pyStripList (w1 ++ l.data ++ w2)) =
      parse_nmea_stripped (pyStripList l.data)
    rw [key]
  · show parse_can_ascii_stripped (pyStripList (w1 ++ l.data ++ w2)) =
      parse_can_ascii_stripped (pyStripList l.data)
    rw [key]
  · intro α loads dumps
    show parse_json_stripped loads dumps (pyStripList (w1 ++ l.data ++ w2)) =
      parse_json_stripped loads dumps (pyStripList l.data)
    rw [key]

/-- C10 witness: a space before and an LF after the line `$x` (and a
trivial JSON oracle) leave all three reports unchanged. -/
theorem decoders_strip_invariant_witness :
    parse_nmea_sentence (.mk ([' '] ++ "$x".data ++ ['\n'])) = parse_nmea_sentence "$x" ∧
    parse_can_ascii (.mk ([' '] ++ "$x".data ++ ['\n'])) = parse_can_ascii "$x" ∧
    parse_json_line (fun _ : String => (none : Option Unit)) (fun _ => "")
        (.mk ([' '] ++ "$x".data ++ ['\n'])) =
      parse_json_line (fun _ : String => (none : Option Unit)) (fun _ => "") "$x" := by
  have h := decoders_strip_invariant "$x" [' '] ['\n'] (by decide) (by decide)
  exact ⟨h.1, h.2.1, h.2.2 Unit _ _⟩

/-! ### C5: decoders always return formatted reports -/

lemma report_tail_lemma (p q : String) (h : q.data.getLast? = some '\n') :
    (p ++ q).data.getLast? = some '\n' := by
  rw [String.data_append, List.getLast?_append, h]
  rfl

lemma report_head_lemma (p x : String) (c : Char) (h : p.data.head? = some c) :
    (p ++ x).data.head? = some c := by
  rw [String.data_append, List.head?_append, h]
  rfl

/-- C5 (confirmed): all four protocol decoders are total functions (every
raised-and-caught Python exception path is one of the modelled branches)
and, for every input, return a line-feed-terminated report that is either
a decoded block (opening `---`) or a bracketed diagnostic (opening `[`). -/
theorem decoders_total_reports :
    (∀ s, is_report (parse_nmea_sentence s)) ∧
    (∀ b, is_report (parse_modbus_rtu b)) ∧
    (∀ s, is_report (parse_can_ascii s)) ∧
    (∀ (α : Type) (loads : String → Option α) (dumps : α → String) (s : String),
      is_report (parse_json_line loads dumps s)) := by
  refine ⟨?_, ?_, ?_, ?_⟩
  · intro s
    unfold is_report parse_nmea_sentence parse_nmea_stripped gpgga_report gprmc_report
    dsimp only
    repeat' split
    all_goals
      refine ⟨report_tail_lemma _ _ (by decide), ?_⟩
    all_goals
      first
        | (refine Or.inl ?_
           repeat (apply report_head_lemma)
           decide)
        | (refine Or.inr ?_
           repeat (apply report_head_lemma)
           decide)
  · intro b
    unfold is_report parse_modbus_rtu modbus_report
    try dsimp only
    repeat' split
    all_goals
      refine ⟨report_tail_lemma _ _ (by decide), ?_⟩
    all_goals
      first
        | (refine Or.inl ?_
           repeat (apply report_head_lemma)
           decide)
        | (refine Or.inr ?_
           repeat (apply report_head_lemma)
           decide)
  · intro s
    unfold is_report parse_can_ascii parse_can_ascii_stripped can_report
    try dsimp only
    repeat' split
    all_goals
      refine ⟨report_tail_lemma _ _ (by decide), ?_⟩
    all_goals
      first
        | (refine Or.inl ?_
           repeat (apply report_head_lemma)
           decide)
        | (refine Or.inr ?_
           repeat (apply report_head_lemma)
           decide)
  · intro α loads dumps s
    unfold is_report parse_json_line parse_json_stripped
    try dsimp only
    repeat' split
    all_goals
      refine ⟨report_tail_lemma _ _ (by decide), ?_⟩
    all_goals
      first
        | (refine Or.inl ?_
           repeat (apply report_head_lemma)
           decide)
        | (refine Or.inr ?_
           repeat (apply report_head_lemma)
           decide)

/-! ### C4: pending partial line at session end -/

/-- C4 (code bug): evaluation of both session-end paths on a stream that
ends mid-line.  The GUI log/decode consumer (protocol None, file logging
on), fed the chunk `b"abc"` and then the end-of-stream sentinel, closes the
log file without writing the pending buffer — the final trimmed timestamped
entry the claim (and the spec's scenario 5) requires never happens.  The
CLI path does write the stripped pending buffer before closing. -/
theorem gui_pending_line_discarded :
    log_and_decode_task "None" none none true "TS " (fun c => .mk (c.map Char.ofNat))
        [[97, 98, 99]] [] = ([LogEvent.close], []) ∧
    cli_finalize "TS " "abc".data =
      [LogEvent.write ("TS " ++ "abc" ++ "\n"), LogEvent.close] := by
  constructor
  · decide
  · decide

/-! ### C6: log entry format and flushing -/

lemma get_timestamp_known {f d : String} {render : String → String}
    (hne : f ≠ "none") (hlk : (ts_formats render).lookup f = some (render f))
    (hr : render f ≠ "") :
    get_timestamp f d render = render f ++ ((TS_DELIMS.lookup d).getD " ") := by
  unfold get_timestamp
  rw [if_neg hne]
  dsimp only
  rw [hlk]
  simp only [Option.getD_some]
  rw [if_pos hr]

lemma log_task_modbus_path (p : List Nat → String) (ps : Option (String → String))
    (ts : String) (dec : List Nat → String) (chunks : List (List Nat)) :
    ∀ buf, log_and_decode_task "Modbus-RTU" (some p) ps true ts dec chunks buf =
      (chunks.map (fun c => LogEvent.write (ts ++ p c)) ++ [LogEvent.close],
       chunks.map p) := by
  induction chunks with
  | nil =>
    intro buf
    simp [log_and_decode_task]
  | cons c rest ih =>
    intro buf
    simp only [log_and_decode_task, if_pos rfl, ih buf]
    simp

lemma log_task_line_path (protocol : String) (hp : protocol ≠ "Modbus-RTU")
    (pb : Option (List Nat → String)) (ps : Option (String → String)) (ts : String)
    (dec : List Nat → String) (chunks : List (List Nat)) :
    ∀ buf, '\n' ∉ buf →
      (log_and_decode_task protocol pb ps true ts dec chunks buf).1 =
        ((drain_lines (buf ++ (chunks.map (fun c => (dec c).data)).flatten)).1.map
          (fun l => [LogEvent.write (ts ++ .mk l ++ "\n"), LogEvent.flush])).flatten
          ++ [LogEvent.close] := by
  induction chunks with
  | nil =>
    intro buf h
    simp only [List.map_nil, List.flatten_nil, List.append_nil]
    rw [drain_lines_no_nl h]
    simp [log_and_decode_task]
  | cons c rest ih =>
    intro buf h
    simp only [log_and_decode_task, if_neg hp]
    rw [ih _ (drain_lines_buf_no_nl _)]
    simp only [List.map_cons, List.flatten_cons]
    conv_rhs => rw [← List.append_assoc]
    rw [drain_lines_append (buf ++ (dec c).data)]
    simp [List.map_append, List.flatten_append, List.append_assoc]

/-- C6 (amended): with file logging enabled, in the non-Modbus path every
log entry is exactly `<timestamp><line><LF>` (one per completed source
line) and each write is immediately followed by a flush; in the Modbus-RTU
path each raw frame produces one write of `<timestamp><decoded report>`
(the multi-line decoder output, not the original frame) with **no** flush.
`get_timestamp` returns the empty string for format "none", and for the
known time formats a non-empty rendering followed by the delimiter mapped
from \x7bblank, komma, semicolon, none\x7d to \x7bspace, comma, semicolon,
empty\x7d (default space). -/
theorem log_entry_format :
    (∀ (protocol : String), protocol ≠ "Modbus-RTU" →
      ∀ pb ps ts dec (chunks : List (List Nat)),
      (log_and_decode_task protocol pb ps true ts dec chunks []).1 =
        ((drain_lines ((chunks.map (fun c => (dec c).data)).flatten)).1.map
          (fun l => [LogEvent.write (ts ++ .mk l ++ "\n"), LogEvent.flush])).flatten
          ++ [LogEvent.close]) ∧
    (∀ p ps ts dec (chunks : List (List Nat)),
      log_and_decode_task "Modbus-RTU" (some p) ps true ts dec chunks [] =
        (chunks.map (fun c => LogEvent.write (ts ++ p c)) ++ [LogEvent.close],
         chunks.map p)) ∧
    (∀ d render, get_timestamp "none" d render = "") ∧
    (∀ f d render,
      f ∈ ["ISO 8601", "Date|Time|Timezone", "Date|Time", "Time",
           "Year|Day of year|Time", "yyyy|MM|dd|HH|mm|ss"] → render f ≠ "" →
      get_timestamp f d render = render f ++ ((TS_DELIMS.lookup d).getD " ")) ∧
    (∀ d, ((TS_DELIMS.lookup d).getD " ") ∈ ([" ", ",", ";", ""] : List String)) := by
  refine ⟨?_, ?_, ?_, ?_, ?_⟩
  · intro protocol hp pb ps ts dec chunks
    have key : pyStripList [] = [] := rfl
    have h := log_task_line_path protocol hp pb ps ts dec chunks [] (by simp)
    simpa using h
  · intro p ps ts dec chunks
    exact log_task_modbus_path p ps ts dec chunks []
  · intro d render
    rfl
  · intro f d render hf hr
    simp only [List.mem_cons, List.not_mem_nil, or_false] at hf
    rcases hf with e | e | e | e | e | e <;>
      · subst e
        exact get_timestamp_known (by decide) rfl hr
  · intro d
    unfold TS_DELIMS
    simp only [List.lookup]
    repeat' split
    all_goals simp

/-- C6 witness: a chunk `b"hi\n"` yields one `T hi\n` write followed by a
flush; a "Time" timestamp with delimiter "komma" renders as the time text
plus a comma. -/
theorem log_entry_format_witness :
    (log_and_decode_task "None" none none true "T " (fun c => .mk (c.map Char.ofNat))
        [[104, 105, 10]] []).1 =
      [LogEvent.write ("T " ++ "hi" ++ "\n"), LogEvent.flush, LogEvent.close] ∧
    get_timestamp "Time" "komma" (fun _ => "12:00") = "12:00" ++ "," := by
  constructor
  · exact (log_entry_format.1 "None" (by decide) none none "T "
      (fun c => .mk (c.map Char.ofNat)) [[104, 105, 10]]).trans (by decide)
  · exact (log_entry_format.2.2.2.1 "Time" "komma" (fun _ => "12:00")
      (by decide) (by decide)).trans (by decide)

/-- C6 counterexample: in Modbus-RTU mode the (too-short) frame
`01 02 03` produces one log write whose content is the timestamp plus the
decoder report (not the original frame line), and the event stream contains
no flush — refuting "every completed line triggers an immediate flush" and
the `<timestamp><original line><newline>` format for Modbus entries. -/
theorem modbus_log_entry_not_flushed :
    (log_and_decode_task "Modbus-RTU" (some parse_modbus_rtu) none true "TS "
        (fun c => .mk (c.map Char.ofNat)) [[1, 2, 3]] []).1 =
      [LogEvent.write ("TS " ++ "[TRAMA MODBUS MUY CORTA: 01 02 03]\n"),
       LogEvent.close] ∧
    LogEvent.flush ∉
      (log_and_decode_task "Modbus-RTU" (some parse_modbus_rtu) none true "TS "
        (fun c => .mk (c.map Char.ofNat)) [[1, 2, 3]] []).1 := by
  constructor
  · decide
  · decide

/-! ### C7: mid-session I/O failure -/

/-- C7 (amended): on a mid-read link failure the read loop emits exactly
one synthetic error chunk to the display sink after the chunks already
read, terminates (`is_reading` cleared) and never retries (later poll
events are ignored); but the end-of-stream sentinel is **not** pushed by
the failure path: the GUI poller only ever forwards data chunks (never
`none`), and the sentinel reaches the logging sink only via the
user-initiated `close_port`. -/
theorem read_failure_emits_error_once :
    (∀ (pre post : List PollEvent), (∀ e ∈ pre, e ≠ PollEvent.fail) →
      read_task (pre ++ PollEvent.fail :: post) =
        ((read_task pre).1 ++ [ERROR_CHUNK], false)) ∧
    close_port_log_pushes = [none] ∧
    (∀ b chunks, (none : Option (List Nat)) ∉ process_gui_queue b chunks) := by
  refine ⟨?_, rfl, ?_⟩
  · intro pre
    induction pre with
    | nil =>
      intro post _
      simp [read_task]
    | cons e rest ih =>
      intro post h
      have he : e ≠ PollEvent.fail := h e (List.mem_cons_self _ _)
      have hrest : ∀ x ∈ rest, x ≠ PollEvent.fail :=
        fun x m => h x (List.mem_cons_of_mem _ m)
      cases e with
      | quiet =>
        simp only [List.cons_append, read_task]
        exact ih post hrest
      | chunk c =>
        simp only [List.cons_append, read_task, List.append_eq]
        rw [ih post hrest]
        by_cases hc : c = []
        · subst hc
          simp
        · simp [hc]
      | fail => exact absurd rfl he
  · intro b chunks
    unfold process_gui_queue
    split
    · simp
    · simp

/-- C7 witness: one successful read then a failure: the display sink gets
the data chunk then the error chunk, and the loop stops. -/
theorem read_failure_emits_error_once_witness :
    read_task ([PollEvent.chunk [65]] ++ PollEvent.fail :: [PollEvent.chunk [66]]) =
      ((read_task [PollEvent.chunk [65]]).1 ++ [ERROR_CHUNK], false) :=
  read_failure_emits_error_once.1 [PollEvent.chunk [65]] [PollEvent.chunk [66]]
    (by decide)

/-- C7 counterexample: after a pure failure the only item the logging sink
can receive from the failure path is the forwarded error chunk — no `none`
sentinel is among the forwarded items, refuting "signals end-of-stream to
the logging sink". -/
theorem read_failure_no_sentinel :
    read_task [PollEvent.fail] = ([ERROR_CHUNK], false) ∧
    process_gui_queue true (read_task [PollEvent.fail]).1 = [some ERROR_CHUNK] ∧
    (none : Option (List Nat)) ∉ process_gui_queue true (read_task [PollEvent.fail]).1 := by
  refine ⟨by decide, by decide, by decide⟩

/-! ### C8: command history -/

lemma deque50_append_length (h : List String) (x : String) :
    (deque50_append h x).length = min (h.length + 1) 50 := by
  unfold deque50_append
  simp only [List.length_drop, List.length_append, List.length_singleton]
  omega

/-- C8 (amended): the entry-field string is appended to the history (with
50-capacity oldest-eviction) whenever it is non-empty and distinct from the
most recent entry — before the send is attempted and regardless of whether
the send succeeds; the capacity bound and oldest-eviction behaviour hold as
claimed. -/
theorem send_history_spec :
    (∀ (h : List String) (x : String) (hex ok : Bool), x ≠ "" →
      (send_data h x hex ok).1 =
        (if h.getLast? = some x then h else deque50_append h x)) ∧
    (∀ (h : List String) (hex ok : Bool), send_data h "" hex ok = (h, false)) ∧
    (∀ (h : List String) (x : String), h.length ≤ 50 →
      (deque50_append h x).length ≤ 50) ∧
    (∀ (h : List String) (x : String), h.length = 50 →
      deque50_append h x = h.drop 1 ++ [x]) ∧
    (∀ (h : List String) (x : String), h.length < 50 →
      deque50_append h x = h ++ [x]) := by
  refine ⟨?_, ?_, ?_, ?_, ?_⟩
  · intro h x hex ok hx
    unfold send_data
    rw [if_neg hx]
    by_cases hl : h.getLast? = some x
    · have hne : h ≠ [] := by
        intro e
        rw [e] at hl
        simp at hl
      rw [if_pos hl]
      have hcond : ¬ (h = [] ∨ h.getLast? ≠ some x) := by
        push_neg
        exact ⟨hne, hl⟩
      rw [if_neg hcond]
      dsimp only
      split
      · split <;> rfl
      · rfl
    · rw [if_neg hl]
      rw [if_pos (Or.inr hl)]
      dsimp only
      split
      · split <;> rfl
      · rfl
  · intro h hex ok
    unfold send_data
    rw [if_pos rfl]
  · intro h x hlen
    rw [deque50_append_length]
    omega
  · intro h x hlen
    unfold deque50_append
    simp only [List.length_append, List.length_singleton, hlen]
    rw [List.drop_append_of_le_length (by omega)]
  · intro h x hlen
    unfold deque50_append
    simp only [List.length_append, List.length_singleton]
    have e : h.length + 1 - 50 = 0 := by omega
    rw [e, List.drop_zero]

/-- C8 witness: appending a distinct entry to a one-element history. -/
theorem send_history_spec_witness :
    (send_data ["A"] "B" false true).1 =
      (if (["A"] : List String).getLast? = some "B" then ["A"]
       else deque50_append ["A"] "B") :=
  send_history_spec.1 ["A"] "B" false true (by decide)

/-- C8 counterexample: a failed text-mode send (`write_ok = false`) and an
invalid-hex send both still append the string to the history, refuting
"appends ... only when the send succeeds". -/
theorem send_failure_still_appends :
    send_data [] "AB" false false = (["AB"], false) ∧
    send_data [] "zz" true true = (["zz"], false) := by
  constructor
  · decide
  · decide

end SerialLogger
